import Mathlib

/-
Verification of the sg-3d-export core against its specification.

The embedding models the two core modules:

* backend/services/building_index.py — binary STL codec
  (_read_stl_triangles / _write_binary_stl), catalog merge
  (merge_buildings_to_stl), preview decimation
  (get_buildings_preview_data), haversine radius query
  (find_buildings_in_radius).
* backend/services/stl_processor.py — centroid clipping (clip_by_bounds)
  and the decimation step of mesh_to_json (same stride logic as
  get_buildings_preview_data).

Modelling conventions:

* Byte streams are List Nat with each entry < 256 (encoders produce
  values reduced mod 256, mirroring struct.pack).
* A float32 coordinate is represented by its 32-bit IEEE-754 bit
  pattern, a Nat < 2^32.  struct.pack("<f", x) for an exactly
  float32-representable x writes the 4 little-endian bytes of that
  pattern, and struct.unpack returns the identical value, so byte-level
  fidelity of the codec is exactly bit-pattern fidelity.
* Python exceptions are modelled by Option: none where the source
  raises (missing file, struct.error on a short count field).
* The geometric arithmetic of clip_by_bounds is modelled over ℚ and the
  haversine formula over ℝ: the claims about them concern comparison
  logic and set membership, which the exact-arithmetic embedding
  captures.
-/

namespace SG3D

namespace BuildingIndex

/-- Little-endian 4-byte encoding of a 32-bit word, as written by
struct.pack("<I", w) and struct.pack("<f", x) (for the bit pattern of x). -/
def le32 (w : Nat) : List Nat :=
  [w % 256, w / 256 % 256, w / 65536 % 256, w / 16777216 % 256]

/-- Little-endian 4-byte decoding, as read by struct.unpack("<I", ...) or
struct.unpack("<f", ...) (bit pattern).  Only ever applied where the source
has verified at least 4 bytes are present; shorter lists decode to 0. -/
def dec4 : List Nat → Nat
  | b0 :: b1 :: b2 :: b3 :: _ => b0 + 256 * (b1 + 256 * (b2 + 256 * b3))
  | _ => 0

/-- One triangle record of the binary STL format: a normal and three
vertices, each stored as three float32 bit patterns
(building_index.py lines 204-212). -/
structure Triangle where
  normal : Nat × Nat × Nat
  v1 : Nat × Nat × Nat
  v2 : Nat × Nat × Nat
  v3 : Nat × Nat × Nat
deriving DecidableEq, Repr

/-- The three words of one vector. -/
def vecWords (v : Nat × Nat × Nat) : List Nat :=
  [v.1, v.2.1, v.2.2]

/-- The 12 words of one triangle record, in stored order:
normal, then v1, v2, v3 (building_index.py lines 204-207 / 254-257). -/
def triWords (t : Triangle) : List Nat :=
  vecWords t.normal ++ vecWords t.v1 ++ vecWords t.v2 ++ vecWords t.v3

/-- A triangle is valid when each stored word is a genuine 32-bit pattern. -/
def TriangleValid (t : Triangle) : Prop :=
  ∀ w ∈ triWords t, w < 4294967296

instance (t : Triangle) : Decidable (TriangleValid t) := by
  unfold TriangleValid; infer_instance

/-- Serialize a list of words as consecutive little-endian float32 fields. -/
def packWords (ws : List Nat) : List Nat :=
  (ws.map le32).flatten

/-- The 50-byte binary record of one triangle: 12 float32 fields followed
by the 2-byte attribute count written as zero
(building_index.py lines 254-258). -/
def tri_record (t : Triangle) : List Nat :=
  packWords (triWords t) ++ [0, 0]

/-- The fixed 80-byte header written by _write_binary_stl
(building_index.py lines 246-248): the ASCII bytes of
"Binary STL - SG Buildings Export" padded with NULs to 80 bytes. -/
def stl_header : List Nat :=
  [66, 105, 110, 97, 114, 121, 32, 83, 84, 76, 32, 45, 32, 83, 71, 32,
   66, 117, 105, 108, 100, 105, 110, 103, 115, 32, 69, 120, 112, 111, 114, 116]
  ++ List.replicate 48 0

/-- BuildingIndex._write_binary_stl (building_index.py lines 241-260):
80-byte header, little-endian triangle count, then one 50-byte record per
triangle, the stored normal first.  struct.pack("<I", n) raises for
n ≥ 2^32; the model wraps instead, so theorems about it carry the
hypothesis that the count fits in 32 bits. -/
def write_binary_stl (ts : List Triangle) : List Nat :=
  stl_header ++ le32 ts.length ++ (ts.map tri_record).flatten

/-- The 5-byte ASCII marker b"solid" tested at building_index.py line 188. -/
def solid_marker : List Nat := [115, 111, 108, 105, 100]

/-- The ASCII bytes of "facet normal", tested by substring containment at
building_index.py line 191. -/
def facet_marker : List Nat :=
  [102, 97, 99, 101, 116, 32, 110, 111, 114, 109, 97, 108]

/-- Contiguous-substring containment of byte sequences, modelling the
Python test "facet normal" in content. -/
def has_substring (pat : List Nat) : List Nat → Bool
  | [] => pat.isEmpty
  | b :: rest => pat.isPrefixOf (b :: rest) || has_substring pat rest

/-- The ASCII-format detection of _read_stl_triangles
(building_index.py lines 185-192): the stream is treated as textual iff its
first 5 bytes are b"solid" and the bytes of "facet normal" occur in it. -/
def is_ascii_stl (bs : List Nat) : Bool :=
  decide (bs.take 5 = solid_marker) && has_substring facet_marker bs

/-- Read up to k consecutive little-endian 32-bit fields. -/
def read_words : Nat → List Nat → List Nat
  | 0, _ => []
  | k + 1, bs => dec4 bs :: read_words k (bs.drop 4)

/-- Rebuild a triangle from its 12 stored words.  Never applied to lists of
other lengths; those fall back to the zero triangle. -/
def triangle_of_words : List Nat → Triangle
  | [w0, w1, w2, w3, w4, w5, w6, w7, w8, w9, w10, w11] =>
      ⟨(w0, w1, w2), (w3, w4, w5), (w6, w7, w8), (w9, w10, w11)⟩
  | _ => ⟨(0, 0, 0), (0, 0, 0), (0, 0, 0), (0, 0, 0)⟩

/-- Parse one 50-byte triangle record (building_index.py lines 204-212):
normal from bytes 0-11, vertices from bytes 12-47; bytes 48-49 ignored. -/
def parse_triangle (bs : List Nat) : Triangle :=
  triangle_of_words (read_words 12 bs)

/-- The record loop of _read_stl_triangles (building_index.py lines
198-214): up to n records of 50 bytes each; if fewer than 50 bytes remain
for a declared record the loop breaks and the triangles read so far are
returned. -/
def read_triangles : Nat → List Nat → List Triangle
  | 0, _ => []
  | n + 1, data =>
      if data.length < 50 then []
      else parse_triangle (data.take 50) :: read_triangles n (data.drop 50)

/-- BuildingIndex._read_stl_triangles (building_index.py lines 176-214) on
the contents of the file.  none models a raised exception: the source
raises struct.error when fewer than 4 bytes follow the 80-byte header
(line 196).  The textual branch (lines 190-192 and _parse_ascii_stl,
lines 216-239) converts decimal text to floats, which the bit-pattern
model cannot express; it is modelled as none, and every theorem below
either applies only to streams whose first 5 bytes provably differ from
the b"solid" marker, or carries that as a hypothesis, so no theorem
depends on the value chosen for that branch. -/
def read_stl_triangles (bs : List Nat) : Option (List Triangle) :=
  if is_ascii_stl bs then none
  else if (bs.drop 80).length < 4 then none
  else some (read_triangles (dec4 (bs.drop 80)) ((bs.drop 80).drop 4))

/-- Reading one backing mesh resource of a building inside
merge_buildings_to_stl (building_index.py lines 164-169): the resource is
the byte stream of the file, or none when the file cannot be opened; a decode
failure is the raised exception caught by the except branch. -/
def read_building (r : Option (List Nat)) : Option (List Triangle) :=
  r.bind read_stl_triangles

/-- The triangle accumulation loop of merge_buildings_to_stl
(building_index.py lines 161-169): decode the resource of each record in input
order, extend with its triangles, and skip (contribute nothing for) a
record whose read raises. -/
def merged_triangles (rs : List (Option (List Nat))) : List Triangle :=
  (rs.map fun r => (read_building r).getD []).flatten

/-- BuildingIndex.merge_buildings_to_stl (building_index.py lines
154-174): empty building list gives b"", an accumulation with no
triangles gives b"", otherwise the merged triangles are serialized. -/
def merge_buildings_to_stl (rs : List (Option (List Nat))) : List Nat :=
  if rs.isEmpty then []
  else if (merged_triangles rs).isEmpty then []
  else write_binary_stl (merged_triangles rs)

/-- The element-keeping loop of a Python extended slice lst[::s] for
s ≥ 1, with k the number of elements still to skip before the next kept
one: keep when k = 0, then skip s-1. -/
def slice_aux (s : Nat) : Nat → List α → List α
  | _, [] => []
  | 0, x :: xs => x :: slice_aux s (s - 1) xs
  | k + 1, _ :: xs => slice_aux s k xs

/-- Python extended slice lst[::s] for s ≥ 1: the elements at indices
0, s, 2s, ... in order. -/
def slice_step (s : Nat) (l : List α) : List α :=
  slice_aux s 0 l

/-- The preview decimation step shared by
BuildingIndex.get_buildings_preview_data (building_index.py lines
299-302) and STLProcessor.mesh_to_json (stl_processor.py lines 273-277):
if the triangle count exceeds maxTriangles, keep every step-th triangle
with step = count // maxTriangles. -/
def preview_decimate (ts : List α) (maxTriangles : Nat) : List α :=
  if maxTriangles < ts.length then slice_step (ts.length / maxTriangles) ts
  else ts

/-- A concrete triangle whose words are the float32 bit patterns of the
unit-z normal, and vertices (0,0,0), (1,0,0), (0,1,0);
1065353216 = 0x3F800000 is the bit pattern of 1.0f. -/
def sample_tri : Triangle :=
  ⟨(0, 0, 1065353216), (0, 0, 0), (1065353216, 0, 0), (0, 1065353216, 0)⟩

/-- A concrete truncated stream: a binary header of 80 sevens, a declared
count of 2 triangles, but only 60 bytes of payload (one complete record
plus 10 stray bytes). -/
def truncated_sample : List Nat :=
  List.replicate 80 7 ++ [2, 0, 0, 0] ++ List.replicate 60 0

/-- The serialized empty mesh: an 84-byte stream declaring 0 triangles. -/
def empty_stl : List Nat := write_binary_stl []

/-- A triangle with all words equal to w, used to build distinguishable
concrete triangle lists. -/
def const_tri (w : Nat) : Triangle :=
  ⟨(w, w, w), (w, w, w), (w, w, w), (w, w, w)⟩

/-- Seven pairwise distinct concrete triangles. -/
def seven_tris : List Triangle :=
  [const_tri 0, const_tri 1, const_tri 2, const_tri 3,
   const_tri 4, const_tri 5, const_tri 6]

/-- A triangle whose stored normal is degenerate (all-zero) while its
vertices (0,0,0), (1,0,0), (0,1,0) span a positive-area triangle whose
edge cross product is the exactly representable unit vector (0,0,1). -/
def zero_normal_tri : Triangle :=
  ⟨(0, 0, 0), (0, 0, 0), (1065353216, 0, 0), (0, 1065353216, 0)⟩

/-- The two-argument arctangent as computed by math.atan2 (C convention),
used at building_index.py line 41.  Real numbers carry no signed zero, so
the x = 0 rows collapse to the three cases below. -/
noncomputable def atan2 (y x : ℝ) : ℝ :=
  if 0 < x then Real.arctan (y / x)
  else if x < 0 then
    (if y < 0 then Real.arctan (y / x) - Real.pi else Real.arctan (y / x) + Real.pi)
  else
    (if 0 < y then Real.pi / 2 else if y < 0 then -(Real.pi / 2) else 0)

/-- haversine_distance (building_index.py lines 28-43): great-circle
distance in meters on a sphere of radius 6371000, via the haversine
formula; math.radians x = x * pi / 180. -/
noncomputable def haversine_distance (lat1 lon1 lat2 lon2 : ℝ) : ℝ :=
  let lat1_rad := lat1 * Real.pi / 180
  let lat2_rad := lat2 * Real.pi / 180
  let delta_lat := (lat2 - lat1) * Real.pi / 180
  let delta_lon := (lon2 - lon1) * Real.pi / 180
  let a := Real.sin (delta_lat / 2) ^ 2 +
    Real.cos lat1_rad * Real.cos lat2_rad * Real.sin (delta_lon / 2) ^ 2
  let c := 2 * atan2 (Real.sqrt a) (Real.sqrt (1 - a))
  6371000 * c

/-- One catalog record (building_index.py lines 16-25); the backing file
path is kept as an opaque string handle. -/
structure Building where
  way_code : String
  lat : ℝ
  lon : ℝ
  blender_x : ℝ
  blender_y : ℝ
  height_m : ℝ
  file_path : String

open Classical in
/-- BuildingIndex.find_buildings_in_radius (building_index.py lines
107-132) applied to the indexed building list: a linear scan appending
exactly the buildings whose haversine distance from the center is at most
the radius. -/
noncomputable def find_buildings_in_radius
    (center_lat center_lon radius_meters : ℝ) : List Building → List Building
  | [] => []
  | b :: rest =>
      if haversine_distance center_lat center_lon b.lat b.lon ≤ radius_meters
      then b :: find_buildings_in_radius center_lat center_lon radius_meters rest
      else find_buildings_in_radius center_lat center_lon radius_meters rest

end BuildingIndex

namespace STLProcessor

/-- One mesh vertex, modelled with exact coordinates. -/
structure Vec3 where
  x : ℚ
  y : ℚ
  z : ℚ
deriving DecidableEq, Repr

/-- One triangle of mesh.vectors (three vertices; clip_by_bounds never
consults normals). -/
structure Tri where
  a : Vec3
  b : Vec3
  c : Vec3
deriving DecidableEq, Repr

/-- The centroid of a triangle, np.mean over its three vertices
(stl_processor.py line 98). -/
def centroid (t : Tri) : Vec3 :=
  ⟨(t.a.x + t.b.x + t.c.x) / 3, (t.a.y + t.b.y + t.c.y) / 3,
   (t.a.z + t.b.z + t.c.z) / 3⟩

/-- The per-triangle mask of clip_by_bounds (stl_processor.py lines
101-107): centroid inside the x and y ranges, and inside the z range only
when both min_z and max_z are supplied. -/
def centroid_in_bounds (min_x max_x min_y max_y : ℚ)
    (min_z max_z : Option ℚ) (t : Tri) : Bool :=
  let c := centroid t
  let xy := decide (min_x ≤ c.x) && decide (c.x ≤ max_x) &&
    decide (min_y ≤ c.y) && decide (c.y ≤ max_y)
  match min_z, max_z with
  | some zlo, some zhi => xy && (decide (zlo ≤ c.z) && decide (c.z ≤ zhi))
  | _, _ => xy

/-- STLProcessor.clip_by_bounds (stl_processor.py lines 72-119).  The
first argument is the loaded monolithic mesh: none models the branch
where self._mesh is absent and load_mesh fails (lines 90-92).  An empty
filtered set also returns None (lines 112-113). -/
def clip_by_bounds : Option (List Tri) → ℚ → ℚ → ℚ → ℚ →
    Option ℚ → Option ℚ → Option (List Tri)
  | none, _, _, _, _, _, _ => none
  | some ts, min_x, max_x, min_y, max_y, min_z, max_z =>
      if (ts.filter (centroid_in_bounds min_x max_x min_y max_y min_z max_z)).isEmpty
      then none
      else some (ts.filter (centroid_in_bounds min_x max_x min_y max_y min_z max_z))

/-- The propositional form of the centroid mask, spelling out that the z
test participates only when both z bounds are supplied. -/
def InBounds (min_x max_x min_y max_y : ℚ) (min_z max_z : Option ℚ)
    (t : Tri) : Prop :=
  min_x ≤ (centroid t).x ∧ (centroid t).x ≤ max_x ∧
  min_y ≤ (centroid t).y ∧ (centroid t).y ≤ max_y ∧
  (∀ zlo zhi, min_z = some zlo → max_z = some zhi →
    zlo ≤ (centroid t).z ∧ (centroid t).z ≤ zhi)

/-- A degenerate concrete triangle at the origin; its centroid (0,0,0)
lies inside the unit square bounds used by the witnesses. -/
def tri_origin : Tri := ⟨⟨0, 0, 0⟩, ⟨0, 0, 0⟩, ⟨0, 0, 0⟩⟩

/-- A concrete triangle with all vertices at (5,5,0); its centroid (5,5,0)
lies outside the unit square bounds used by the witnesses. -/
def tri_far : Tri := ⟨⟨5, 5, 0⟩, ⟨5, 5, 0⟩, ⟨5, 5, 0⟩⟩

end STLProcessor

/- ------------------------------------------------------------------ -/
/- Helper lemmas for the binary codec                                  -/
/- ------------------------------------------------------------------ -/

namespace BuildingIndex

lemma le32_length (w : Nat) : (le32 w).length = 4 := rfl

lemma dec4_le32 (w : Nat) (rest : List Nat) (h : w < 4294967296) :
    dec4 (le32 w ++ rest) = w := by
  simp only [le32, List.cons_append, List.nil_append, dec4]
  omega

lemma drop_le32 (w : Nat) (rest : List Nat) : (le32 w ++ rest).drop 4 = rest := rfl

lemma packWords_cons (w : Nat) (ws : List Nat) :
    packWords (w :: ws) = le32 w ++ packWords ws := by
  simp [packWords]

lemma read_words_pack (ws : List Nat) (rest : List Nat)
    (h : ∀ w ∈ ws, w < 4294967296) :
    read_words ws.length (packWords ws ++ rest) = ws := by
  induction ws generalizing rest with
  | nil => rfl
  | cons w ws ih =>
      rw [packWords_cons, List.append_assoc, List.length_cons]
      simp only [read_words]
      rw [dec4_le32 _ _ (h w (List.mem_cons_self w ws)), drop_le32,
        ih rest fun x hx => h x (List.mem_cons_of_mem _ hx)]

lemma triangle_of_words_triWords (t : Triangle) :
    triangle_of_words (triWords t) = t := rfl

lemma parse_triangle_pack (t : Triangle) (rest : List Nat)
    (h : TriangleValid t) :
    parse_triangle (packWords (triWords t) ++ rest) = t := by
  have h12 : read_words 12 (packWords (triWords t) ++ rest) = triWords t :=
    read_words_pack (triWords t) rest h
  unfold parse_triangle
  rw [h12, triangle_of_words_triWords]

lemma tri_record_length (t : Triangle) : (tri_record t).length = 50 := rfl

lemma take_tri_record (t : Triangle) (rest : List Nat) :
    (tri_record t ++ rest).take 50 = tri_record t := by
  rw [← tri_record_length t]
  exact List.take_left _ _

lemma drop_tri_record (t : Triangle) (rest : List Nat) :
    (tri_record t ++ rest).drop 50 = rest := by
  rw [← tri_record_length t]
  exact List.drop_left _ _

lemma read_triangles_flat (ts : List Triangle)
    (h : ∀ t ∈ ts, TriangleValid t) :
    read_triangles ts.length ((ts.map tri_record).flatten) = ts := by
  induction ts with
  | nil => rfl
  | cons t ts ih =>
      have hflat : ((t :: ts).map tri_record).flatten
          = tri_record t ++ (ts.map tri_record).flatten := by simp
      have hlen : ¬((tri_record t ++ (ts.map tri_record).flatten).length < 50) := by
        rw [List.length_append, tri_record_length]; omega
      rw [List.length_cons]
      simp only [read_triangles, hflat]
      rw [if_neg hlen, take_tri_record, drop_tri_record]
      have hrec : tri_record t = packWords (triWords t) ++ [0, 0] := rfl
      rw [hrec, parse_triangle_pack t _ (h t (List.mem_cons_self t ts)),
        ih fun x hx => h x (List.mem_cons_of_mem _ hx)]

lemma is_ascii_write (ts : List Triangle) :
    is_ascii_stl (write_binary_stl ts) = false := rfl

lemma drop80_write (ts : List Triangle) :
    (write_binary_stl ts).drop 80
      = le32 ts.length ++ (ts.map tri_record).flatten := by
  unfold write_binary_stl
  rw [List.append_assoc]
  have h80 : stl_header.length = 80 := rfl
  rw [← h80]
  exact List.drop_left _ _

lemma read_triangles_truncated (n : Nat) (data : List Nat)
    (h : data.length < 50 * n) :
    (read_triangles n data).length = data.length / 50 ∧
    ∀ i < data.length / 50,
      (read_triangles n data)[i]?
        = some (parse_triangle ((data.drop (50 * i)).take 50)) := by
  induction n generalizing data with
  | zero => omega
  | succ n ih =>
      by_cases hd : data.length < 50
      · have hz : data.length / 50 = 0 := Nat.div_eq_of_lt hd
        simp only [read_triangles, if_pos hd]
        exact ⟨by simpa using hz.symm, by intro i hi; omega⟩
      · simp only [read_triangles, if_neg hd]
        have hlt : (data.drop 50).length < 50 * n := by
          rw [List.length_drop]; omega
        obtain ⟨ihl, ihg⟩ := ih (data.drop 50) hlt
        rw [List.length_drop] at ihl
        constructor
        · rw [List.length_cons, ihl]; omega
        · intro i hi
          cases i with
          | zero => simp
          | succ i =>
              rw [List.getElem?_cons_succ]
              have hi2 : i < (data.drop 50).length / 50 := by
                rw [List.length_drop]; omega
              rw [ihg i hi2, List.drop_drop]
              have harith : 50 + 50 * i = 50 * (i + 1) := by ring
              rw [harith]

/-- Claim C2: decoding the bytes produced by encoding a mesh yields the
mesh back exactly — in particular the triangle count and every vertex
coordinate word (float32 bit pattern) are preserved. -/
theorem stl_codec_roundtrip (ts : List Triangle)
    (hv : ∀ t ∈ ts, TriangleValid t) (hn : ts.length < 4294967296) :
    read_stl_triangles (write_binary_stl ts) = some ts := by
  unfold read_stl_triangles
  rw [is_ascii_write, drop80_write]
  have hlen : ¬((le32 ts.length ++ (ts.map tri_record).flatten).length < 4) := by
    rw [List.length_append, le32_length]; omega
  rw [if_neg (by decide), if_neg hlen, dec4_le32 _ _ hn, drop_le32,
    read_triangles_flat ts hv]

/-- Witness for claim C2 at a concrete one-triangle mesh. -/
theorem stl_codec_roundtrip_witness :
    (∀ t ∈ [sample_tri], TriangleValid t) ∧
    [sample_tri].length < 4294967296 ∧
    read_stl_triangles (write_binary_stl [sample_tri]) = some [sample_tri] :=
  ⟨by decide, by decide, stl_codec_roundtrip [sample_tri] (by decide) (by decide)⟩

/-- Claim C7: a binary stream (first 5 bytes differ from the b"solid"
marker) that declares more triangle records than its remaining bytes can
hold decodes without exception to exactly the complete 50-byte records
present — the partial result read so far, strictly fewer than declared,
each triangle parsed from its own 50-byte slice. -/
theorem truncated_stream_partial_decode (bs : List Nat)
    (h5 : bs.take 5 ≠ solid_marker) (hlen : 84 ≤ bs.length)
    (htr : bs.length - 84 < 50 * dec4 (bs.drop 80)) :
    ∃ ts, read_stl_triangles bs = some ts ∧
      ts.length = (bs.length - 84) / 50 ∧
      ts.length < dec4 (bs.drop 80) ∧
      ∀ i < ts.length,
        ts[i]? = some (parse_triangle ((bs.drop (84 + 50 * i)).take 50)) := by
  have hascii : is_ascii_stl bs = false := by
    unfold is_ascii_stl
    rw [decide_eq_false h5, Bool.false_and]
  have hrest : ¬((bs.drop 80).length < 4) := by
    rw [List.length_drop]; omega
  have hbody : (bs.drop 80).drop 4 = bs.drop 84 := by
    rw [List.drop_drop]
  have hblen : (bs.drop 84).length = bs.length - 84 := List.length_drop 84 bs
  obtain ⟨hl, hg⟩ :=
    read_triangles_truncated (dec4 (bs.drop 80)) (bs.drop 84) (by rw [hblen]; exact htr)
  refine ⟨read_triangles (dec4 (bs.drop 80)) (bs.drop 84), ?_, ?_, ?_, ?_⟩
  · unfold read_stl_triangles
    rw [hascii]
    rw [if_neg (by decide)]
    rw [if_neg hrest]
    rw [hbody]
  · rw [hl, hblen]
  · rw [hl, hblen]; omega
  · intro i hi
    rw [hl, hblen] at hi
    have hi2 : i < (bs.drop 84).length / 50 := by rw [hblen]; exact hi
    rw [hg i hi2, List.drop_drop]

set_option maxRecDepth 100000 in
/-- Witness for claim C7 at the concrete truncated stream. -/
theorem truncated_stream_partial_decode_witness :
    truncated_sample.take 5 ≠ solid_marker ∧
    84 ≤ truncated_sample.length ∧
    truncated_sample.length - 84 < 50 * dec4 (truncated_sample.drop 80) ∧
    ∃ ts, read_stl_triangles truncated_sample = some ts ∧
      ts.length = (truncated_sample.length - 84) / 50 ∧
      ts.length < dec4 (truncated_sample.drop 80) ∧
      ∀ i < ts.length,
        ts[i]? = some (parse_triangle ((truncated_sample.drop (84 + 50 * i)).take 50)) :=
  ⟨by decide, by decide, by decide,
    truncated_stream_partial_decode truncated_sample (by decide) (by decide) (by decide)⟩

lemma merged_triangles_cons (r : Option (List Nat)) (rs : List (Option (List Nat))) :
    merged_triangles (r :: rs) = (read_building r).getD [] ++ merged_triangles rs := by
  simp [merged_triangles]

lemma merged_triangles_append (xs ys : List (Option (List Nat))) :
    merged_triangles (xs ++ ys) = merged_triangles xs ++ merged_triangles ys := by
  simp [merged_triangles]

lemma merged_of_decoded (rs : List (Option (List Nat))) (ds : List (List Triangle))
    (h : rs.map read_building = ds.map some) :
    merged_triangles rs = ds.flatten := by
  induction rs generalizing ds with
  | nil =>
      cases ds with
      | nil => rfl
      | cons d ds => simp at h
  | cons r rs ih =>
      cases ds with
      | nil => simp at h
      | cons d ds =>
          simp only [List.map_cons, List.cons.injEq] at h
          obtain ⟨h1, h2⟩ := h
          rw [merged_triangles_cons, h1, Option.getD_some, ih ds h2,
            List.flatten_cons]

lemma merged_all_empty (rs : List (Option (List Nat)))
    (h : ∀ r ∈ rs, (read_building r).getD [] = []) :
    merged_triangles rs = [] := by
  induction rs with
  | nil => rfl
  | cons r rs ih =>
      rw [merged_triangles_cons, h r (List.mem_cons_self r rs),
        ih fun x hx => h x (List.mem_cons_of_mem _ hx), List.append_nil]

/-- Claim C3: when every record of the list decodes (to the lists ds in
order), the catalog merge accumulates exactly their concatenation, so the
merged triangle count is the sum of the individual decoded counts and the
fragments appear in input order; and a record whose read fails (raises,
modelled as none) is skipped wherever it sits, without aborting the rest
of the merge. -/
theorem merge_additivity (rs : List (Option (List Nat))) (ds : List (List Triangle))
    (bad : Option (List Nat)) (rs1 rs2 : List (Option (List Nat)))
    (h : rs.map read_building = ds.map some) (hbad : read_building bad = none) :
    merged_triangles rs = ds.flatten ∧
    (merged_triangles rs).length = (ds.map List.length).sum ∧
    merged_triangles (rs1 ++ bad :: rs2) = merged_triangles rs1 ++ merged_triangles rs2 := by
  refine ⟨merged_of_decoded rs ds h, ?_, ?_⟩
  · rw [merged_of_decoded rs ds h]
    exact List.length_flatten ds
  · rw [merged_triangles_append, merged_triangles_cons, hbad, Option.getD_none,
      List.nil_append]

set_option maxRecDepth 100000 in
/-- Witness for claim C3: two records, one decoding to a single triangle
and one to an empty mesh, plus a failing record (missing file). -/
theorem merge_additivity_witness :
    [some (write_binary_stl [sample_tri]), some empty_stl].map read_building
        = [[sample_tri], []].map some ∧
    read_building none = none ∧
    (merged_triangles [some (write_binary_stl [sample_tri]), some empty_stl]
        = [[sample_tri], ([] : List Triangle)].flatten ∧
      (merged_triangles [some (write_binary_stl [sample_tri]), some empty_stl]).length
        = ([[sample_tri], ([] : List Triangle)].map List.length).sum ∧
      merged_triangles ([some empty_stl] ++ none :: [some (write_binary_stl [sample_tri])])
        = merged_triangles [some empty_stl]
          ++ merged_triangles [some (write_binary_stl [sample_tri])]) :=
  ⟨by decide, rfl,
    merge_additivity [some (write_binary_stl [sample_tri]), some empty_stl]
      [[sample_tri], []] none [some empty_stl] [some (write_binary_stl [sample_tri])]
      (by decide) rfl⟩

/-- Claim C10: the catalog merge returns the empty byte string both for an
empty building list and for any building list from which no record
contributes a triangle (decode failure or zero-triangle mesh) — not the
84-byte serialization of a zero-triangle mesh. -/
theorem merge_empty_result (rs : List (Option (List Nat)))
    (h : ∀ r ∈ rs, (read_building r).getD [] = []) :
    merge_buildings_to_stl [] = [] ∧
    merge_buildings_to_stl rs = [] ∧
    (write_binary_stl []).length = 84 := by
  refine ⟨rfl, ?_, rfl⟩
  have hm : merged_triangles rs = [] := merged_all_empty rs h
  unfold merge_buildings_to_stl
  rw [hm]
  simp

set_option maxRecDepth 100000 in
/-- Witness for claim C10: one unreadable record and one record whose mesh
decodes to zero triangles. -/
theorem merge_empty_result_witness :
    (∀ r ∈ [none, some empty_stl], (read_building r).getD [] = []) ∧
    (merge_buildings_to_stl [] = [] ∧
      merge_buildings_to_stl [none, some empty_stl] = [] ∧
      (write_binary_stl []).length = 84) :=
  ⟨by decide, merge_empty_result [none, some empty_stl] (by decide)⟩

lemma slice_aux_eq_drop {α : Type} (s : Nat) (l : List α) (k : Nat) :
    slice_aux s k l = slice_step s (l.drop k) := by
  induction l generalizing k with
  | nil => cases k <;> rfl
  | cons x xs ih =>
      cases k with
      | zero => rfl
      | succ j =>
          show slice_aux s j xs = slice_step s (xs.drop j)
          exact ih j

lemma slice_step_cons {α : Type} (s : Nat) (x : α) (xs : List α) :
    slice_step s (x :: xs) = x :: slice_step s (xs.drop (s - 1)) := by
  show slice_aux s 0 (x :: xs) = _
  rw [slice_aux, slice_aux_eq_drop]

lemma slice_aux_getElem {α : Type} (s : Nat) (hs : 1 ≤ s) (l : List α) :
    ∀ (k i : Nat), (slice_aux s k l)[i]? = l[k + i * s]? := by
  induction l with
  | nil => intro k i; simp [slice_aux]
  | cons x xs ih =>
      intro k i
      cases k with
      | zero =>
          cases i with
          | zero => simp [slice_aux]
          | succ i =>
              show (x :: slice_aux s (s - 1) xs)[i + 1]? = (x :: xs)[0 + (i + 1) * s]?
              have hmul : (i + 1) * s = i * s + s := by ring
              rw [List.getElem?_cons_succ, ih (s - 1) i,
                (by omega : 0 + (i + 1) * s = ((s - 1) + i * s) + 1),
                List.getElem?_cons_succ]
      | succ j =>
          show (slice_aux s j xs)[i]? = (x :: xs)[(j + 1) + i * s]?
          rw [ih j i, (by omega : (j + 1) + i * s = (j + i * s) + 1),
            List.getElem?_cons_succ]

lemma slice_step_getElem {α : Type} (s : Nat) (hs : 1 ≤ s) (l : List α) (i : Nat) :
    (slice_step s l)[i]? = l[i * s]? := by
  have h := slice_aux_getElem s hs l 0 i
  simpa using h

lemma slice_step_length {α : Type} (s : Nat) (hs : 1 ≤ s) :
    ∀ (n : Nat) (l : List α), l.length = n →
      (slice_step s l).length = (l.length + s - 1) / s := by
  intro n
  induction n using Nat.strong_induction_on with
  | _ n ih =>
      intro l hl
      cases l with
      | nil =>
          show ([] : List α).length = (0 + s - 1) / s
          simp [Nat.div_eq_of_lt (by omega : s - 1 < s)]
      | cons x xs =>
          simp only [List.length_cons] at hl
          rw [slice_step_cons, List.length_cons, List.length_cons]
          have hdlen : (xs.drop (s - 1)).length = xs.length - (s - 1) :=
            List.length_drop _ _
          have hlt : (xs.drop (s - 1)).length < n := by
            rw [hdlen]; omega
          rw [ih _ hlt (xs.drop (s - 1)) rfl, hdlen]
          have hcase : xs.length - (s - 1) + s - 1 = xs.length ∨
              (xs.length - (s - 1) + s - 1 = s - 1 ∧ xs.length < s - 1 + 1) := by
            omega
          rcases hcase with hc | ⟨hc, hsm⟩
          · rw [hc, (by omega : xs.length + 1 + s - 1 = xs.length + s),
              Nat.add_div_right _ (by omega)]
          · rw [hc, Nat.div_eq_of_lt (by omega : s - 1 < s),
              (by omega : xs.length + 1 + s - 1 = xs.length + s),
              Nat.add_div_right _ (by omega),
              Nat.div_eq_of_lt (by omega : xs.length < s)]

lemma ceil_div_bound (n k q L : Nat) (hk : 0 < k) (hq1 : 1 ≤ q)
    (hql : k * q ≤ n) (hqu : n < k * q + k)
    (hL : q * L ≤ n + q - 1) (hLu : n + q - 1 < q * L + q) :
    L ≤ 2 * k - 1 := by
  have hprod : k + q ≤ k * q + 1 := by
    obtain ⟨a, ha⟩ := Nat.exists_eq_add_of_le hk
    obtain ⟨b, hb⟩ := Nat.exists_eq_add_of_le hq1
    have hexp2 : k * q = 1 + a + b + a * b := by rw [ha, hb]; ring
    omega
  by_contra hc
  push_neg at hc
  have h2k : 2 * k ≤ L := by omega
  have hmul : q * (2 * k) ≤ q * L := Nat.mul_le_mul_left _ h2k
  have hexp : q * (2 * k) = 2 * (k * q) := by ring
  omega

/-- Claim C1 counterexample: seven triangles decimated with
maxTriangles = 3 give stride 7 / 3 = 2 and keep the triangles at indices
0, 2, 4, 6 — four triangles, exceeding the requested bound of 3. -/
theorem preview_decimate_bound_counterexample :
    seven_tris.length = 7 ∧ 3 < seven_tris.length ∧
    preview_decimate seven_tris 3
      = [const_tri 0, const_tri 2, const_tri 4, const_tri 6] ∧
    (preview_decimate seven_tris 3).length = 4 ∧
    ¬((preview_decimate seven_tris 3).length ≤ 3) := by decide

/-- Claim C1 (amended): if the triangle count n exceeds maxTriangles = k
(k positive), the decimation keeps exactly every stride-th triangle of the
input in original order with stride = n / k; the output triangle count is
the exact value (n + stride - 1) / stride — the ceiling of n / stride —
which is bounded by 2 * k - 1 but may exceed k. -/
theorem preview_decimate_stride {α : Type} (ts : List α) (k : Nat)
    (hk : 0 < k) (hgt : k < ts.length) :
    preview_decimate ts k = slice_step (ts.length / k) ts ∧
    (∀ i, (preview_decimate ts k)[i]? = ts[i * (ts.length / k)]?) ∧
    (preview_decimate ts k).length
      = (ts.length + ts.length / k - 1) / (ts.length / k) ∧
    (preview_decimate ts k).length ≤ 2 * k - 1 := by
  have hdef : preview_decimate ts k = slice_step (ts.length / k) ts := by
    unfold preview_decimate
    rw [if_pos hgt]
  have hs : 1 ≤ ts.length / k := (Nat.one_le_div_iff hk).mpr (le_of_lt hgt)
  have hget : ∀ i, (preview_decimate ts k)[i]? = ts[i * (ts.length / k)]? := by
    intro i
    rw [hdef]
    exact slice_step_getElem _ hs ts i
  have hlen : (preview_decimate ts k).length
      = (ts.length + ts.length / k - 1) / (ts.length / k) := by
    rw [hdef]
    exact slice_step_length _ hs ts.length ts rfl
  refine ⟨hdef, hget, hlen, ?_⟩
  rw [hlen]
  have hql : k * (ts.length / k) ≤ ts.length := Nat.mul_div_le ts.length k
  have hqu : ts.length < k * (ts.length / k) + k := by
    conv_lhs => rw [← Nat.div_add_mod ts.length k]
    exact Nat.add_lt_add_left (Nat.mod_lt _ hk) _
  have hL : (ts.length / k) * ((ts.length + ts.length / k - 1) / (ts.length / k))
      ≤ ts.length + ts.length / k - 1 :=
    Nat.mul_div_le _ _
  have hLu : ts.length + ts.length / k - 1
      < (ts.length / k) * ((ts.length + ts.length / k - 1) / (ts.length / k))
        + ts.length / k := by
    conv_lhs => rw [← Nat.div_add_mod (ts.length + ts.length / k - 1) (ts.length / k)]
    exact Nat.add_lt_add_left (Nat.mod_lt _ (by omega)) _
  exact ceil_div_bound ts.length k (ts.length / k) _ hk hs hql hqu hL hLu

/-- Witness for claim C1 (amended) at the seven-triangle list with
maxTriangles = 3. -/
theorem preview_decimate_stride_witness :
    0 < 3 ∧ 3 < seven_tris.length ∧
    (preview_decimate seven_tris 3 = slice_step (seven_tris.length / 3) seven_tris ∧
      (∀ i, (preview_decimate seven_tris 3)[i]?
        = seven_tris[i * (seven_tris.length / 3)]?) ∧
      (preview_decimate seven_tris 3).length
        = (seven_tris.length + seven_tris.length / 3 - 1) / (seven_tris.length / 3) ∧
      (preview_decimate seven_tris 3).length ≤ 2 * 3 - 1) :=
  ⟨by decide, by decide, preview_decimate_stride seven_tris 3 (by decide) (by decide)⟩

lemma packWords_append (a b : List Nat) :
    packWords (a ++ b) = packWords a ++ packWords b := by
  simp [packWords]

lemma flatten_records_drop (i : Nat) : ∀ (ts : List Triangle),
    ((ts.map tri_record).flatten).drop (50 * i)
      = ((ts.drop i).map tri_record).flatten := by
  induction i with
  | zero => intro ts; simp
  | succ i ih =>
      intro ts
      cases ts with
      | nil => simp
      | cons t ts =>
          have h1 : ((t :: ts).map tri_record).flatten
              = tri_record t ++ (ts.map tri_record).flatten := by simp
          rw [h1, (by ring : 50 * (i + 1) = 50 + 50 * i), ← List.drop_drop,
            drop_tri_record, ih ts, List.drop_succ_cons]

lemma take12_record (t : Triangle) (rest : List Nat) :
    (tri_record t ++ rest).take 12 = packWords (vecWords t.normal) := by
  have hshape : tri_record t ++ rest
      = packWords (vecWords t.normal)
        ++ (packWords (vecWords t.v1) ++ (packWords (vecWords t.v2)
          ++ (packWords (vecWords t.v3) ++ ([0, 0] ++ rest)))) := by
    simp [tri_record, triWords, packWords_append, List.append_assoc]
  rw [hshape]
  have h12 : (packWords (vecWords t.normal)).length = 12 := rfl
  rw [← h12]
  exact List.take_left _ _

/-- Claim C8 counterexample: the triangle zero_normal_tri has the
degenerate stored normal (0,0,0) while its vertices (0,0,0), (1,0,0),
(0,1,0) span a positive-area triangle; the cross product of its two edges
from the first vertex is (0,0,1), already of unit length, whose exact
float32 encoding is packWords [0, 0, 1065353216].  The claim says the
encoder replaces the degenerate stored normal with that normalized cross
product, but _write_binary_stl writes the stored zero normal bytes
unchanged. -/
theorem write_normal_counterexample :
    ((write_binary_stl [zero_normal_tri]).drop 84).take 12
      = List.replicate 12 0 ∧
    packWords [0, 0, 1065353216] ≠ List.replicate 12 0 := by decide

/-- Claim C8 (amended): when a mesh is serialized by
BuildingIndex._write_binary_stl, the stored normal bytes of each triangle
are written as-is, unconditionally — absent or degenerate (zero) normals
included, with no recomputation or normalization attempted: the 12 normal
bytes of the i-th 50-byte record of the output are exactly the
little-endian encoding of the stored normal words of the i-th input
triangle. -/
theorem write_binary_stl_normal_as_is (ts : List Triangle) (i : Nat)
    (hi : i < ts.length) :
    ((write_binary_stl ts).drop (84 + 50 * i)).take 12
      = packWords (vecWords (ts.get ⟨i, hi⟩).normal) := by
  have h84 : (write_binary_stl ts).drop 84 = (ts.map tri_record).flatten := by
    unfold write_binary_stl
    have hlen : (stl_header ++ le32 ts.length).length = 84 := by
      rw [List.length_append, le32_length]
      rfl
    rw [← hlen]
    exact List.drop_left _ _
  have hsplit : (write_binary_stl ts).drop (84 + 50 * i)
      = ((write_binary_stl ts).drop 84).drop (50 * i) :=
    (List.drop_drop _ _ _).symm
  rw [hsplit, h84, flatten_records_drop i ts,
    List.drop_eq_getElem_cons hi, List.map_cons, List.flatten_cons]
  exact take12_record _ _

set_option maxRecDepth 100000 in
/-- Witness for claim C8 (amended) at the one-triangle mesh whose stored
normal is zero. -/
theorem write_binary_stl_normal_as_is_witness :
    0 < [zero_normal_tri].length ∧
    ((write_binary_stl [zero_normal_tri]).drop (84 + 50 * 0)).take 12
      = packWords (vecWords ([zero_normal_tri].get ⟨0, by decide⟩).normal) :=
  ⟨by decide, write_binary_stl_normal_as_is [zero_normal_tri] 0 (by decide)⟩

/-- Claim C6: the radius query returns exactly the buildings whose
haversine (great-circle) distance from the center is at most the given
radius — membership in the result is equivalent to membership in the
catalog plus the exact geodesic test, with no other criterion involved. -/
theorem find_in_radius_haversine (clat clon r : ℝ) (blds : List Building)
    (b : Building) :
    b ∈ find_buildings_in_radius clat clon r blds
      ↔ b ∈ blds ∧ haversine_distance clat clon b.lat b.lon ≤ r := by
  induction blds with
  | nil => simp [find_buildings_in_radius]
  | cons x xs ih =>
      by_cases hd : haversine_distance clat clon x.lat x.lon ≤ r
      · rw [find_buildings_in_radius, if_pos hd]
        simp only [List.mem_cons, ih]
        constructor
        · rintro (rfl | ⟨hm, hle⟩)
          · exact ⟨Or.inl rfl, hd⟩
          · exact ⟨Or.inr hm, hle⟩
        · rintro ⟨rfl | hm, hle⟩
          · exact Or.inl rfl
          · exact Or.inr ⟨hm, hle⟩
      · rw [find_buildings_in_radius, if_neg hd]
        rw [ih]
        simp only [List.mem_cons]
        constructor
        · rintro ⟨hm, hle⟩
          exact ⟨Or.inr hm, hle⟩
        · rintro ⟨rfl | hm, hle⟩
          · exact absurd hle hd
          · exact ⟨hm, hle⟩

end BuildingIndex

namespace STLProcessor

lemma centroid_in_bounds_iff (min_x max_x min_y max_y : ℚ)
    (min_z max_z : Option ℚ) (t : Tri) :
    centroid_in_bounds min_x max_x min_y max_y min_z max_z t = true
      ↔ InBounds min_x max_x min_y max_y min_z max_z t := by
  unfold centroid_in_bounds InBounds
  cases min_z with
  | none =>
      simp [Bool.and_eq_true, decide_eq_true_iff, and_assoc]
  | some zlo =>
      cases max_z with
      | none => simp [Bool.and_eq_true, decide_eq_true_iff, and_assoc]
      | some zhi =>
          simp [Bool.and_eq_true, decide_eq_true_iff, and_assoc]

lemma cib_origin : centroid_in_bounds 0 1 0 1 none none tri_origin = true := by
  rw [centroid_in_bounds_iff]
  refine ⟨?_, ?_, ?_, ?_, ?_⟩
  all_goals simp only [centroid, tri_origin]
  · norm_num
  · norm_num
  · norm_num
  · norm_num
  · intro zlo zhi hlo hhi
    exact absurd hlo (by simp)

lemma cib_far : centroid_in_bounds 0 1 0 1 none none tri_far = false := by
  rw [Bool.eq_false_iff, Ne, centroid_in_bounds_iff]
  intro h
  have hx : (centroid tri_far).x ≤ 1 := h.2.1
  simp only [centroid, tri_far] at hx
  norm_num at hx

/-- Claim C5: for bounds with ordered x and y ranges, monolithic clipping
keeps exactly the triangles whose centroid lies inside the x and y ranges
(and inside the z range exactly when both z bounds are supplied), and
every triangle it excludes has its centroid outside those bounds. -/
theorem clip_by_bounds_centroid_spec (min_x max_x min_y max_y : ℚ)
    (min_z max_z : Option ℚ) (ts res : List Tri)
    (hx : min_x ≤ max_x) (hy : min_y ≤ max_y)
    (hres : clip_by_bounds (some ts) min_x max_x min_y max_y min_z max_z
      = some res) :
    (∀ t, t ∈ res ↔ t ∈ ts ∧ InBounds min_x max_x min_y max_y min_z max_z t) ∧
    (∀ t ∈ ts, t ∉ res → ¬ InBounds min_x max_x min_y max_y min_z max_z t) := by
  have hfil : res
      = ts.filter (centroid_in_bounds min_x max_x min_y max_y min_z max_z) := by
    simp only [clip_by_bounds] at hres
    by_cases he :
      (ts.filter (centroid_in_bounds min_x max_x min_y max_y min_z max_z)).isEmpty
    · rw [if_pos he] at hres
      exact absurd hres (by simp)
    · rw [if_neg he] at hres
      exact (Option.some.injEq _ _ ▸ hres).symm
  constructor
  · intro t
    rw [hfil, List.mem_filter, centroid_in_bounds_iff]
  · intro t ht hn hin
    apply hn
    rw [hfil, List.mem_filter]
    exact ⟨ht, (centroid_in_bounds_iff _ _ _ _ _ _ _).mpr hin⟩

/-- Witness for claim C5: clipping a two-triangle mesh to the unit square
keeps the triangle whose centroid is at the origin and excludes the one
whose centroid is at (5,5,0). -/
lemma clip_sample_eval :
    clip_by_bounds (some [tri_origin, tri_far]) 0 1 0 1 none none
      = some [tri_origin] := by
  simp [clip_by_bounds, List.filter_cons, cib_origin, cib_far]

theorem clip_by_bounds_centroid_spec_witness :
    (0 : ℚ) ≤ 1 ∧
    clip_by_bounds (some [tri_origin, tri_far]) 0 1 0 1 none none
      = some [tri_origin] ∧
    ((∀ t, t ∈ [tri_origin] ↔ t ∈ [tri_origin, tri_far] ∧
        InBounds 0 1 0 1 none none t) ∧
      (∀ t ∈ [tri_origin, tri_far], t ∉ [tri_origin] →
        ¬ InBounds 0 1 0 1 none none t)) :=
  ⟨by norm_num, clip_sample_eval,
    clip_by_bounds_centroid_spec 0 1 0 1 none none [tri_origin, tri_far]
      [tri_origin] (by norm_num) (by norm_num) clip_sample_eval⟩

/-- Claim C4 counterexample: a loaded, non-empty mesh whose triangles all
fall outside the bounds produces the same outcome (None) as a missing or
unloadable mesh resource — the clipping operation returns one
indistinguishable value for the two situations. -/
theorem clip_conflation_counterexample :
    clip_by_bounds (some [tri_far]) 0 1 0 1 none none = none ∧
    clip_by_bounds none 0 1 0 1 none none = none ∧
    ([tri_far] : List Tri) ≠ [] := by
  refine ⟨?_, rfl, by simp⟩
  simp [clip_by_bounds, List.filter_cons, cib_far]

/-- Claim C4 (amended): an empty clip result and a missing or unloadable
backing mesh both surface as the same None return of clip_by_bounds; the
clipping operation itself does not distinguish a legitimate empty answer
from a resource-availability fault (callers can only tell them apart by
invoking load_mesh separately). -/
theorem clip_by_bounds_conflates (min_x max_x min_y max_y : ℚ)
    (min_z max_z : Option ℚ) (ts : List Tri)
    (h : ∀ t ∈ ts,
      centroid_in_bounds min_x max_x min_y max_y min_z max_z t = false) :
    clip_by_bounds (some ts) min_x max_x min_y max_y min_z max_z = none ∧
    clip_by_bounds none min_x max_x min_y max_y min_z max_z = none := by
  constructor
  · have hnil : ts.filter (centroid_in_bounds min_x max_x min_y max_y min_z max_z)
        = [] :=
      List.filter_eq_nil_iff.mpr fun a ha => by simp [h a ha]
    simp only [clip_by_bounds]
    rw [hnil]
    rfl
  · rfl

/-- Witness for claim C4 (amended) on a one-triangle mesh outside the
bounds. -/
lemma cib_far_all :
    ∀ t ∈ [tri_far], centroid_in_bounds 0 1 0 1 none none t = false := by
  intro t ht
  rw [List.mem_singleton] at ht
  rw [ht]
  exact cib_far

theorem clip_by_bounds_conflates_witness :
    (∀ t ∈ [tri_far], centroid_in_bounds 0 1 0 1 none none t = false) ∧
    (clip_by_bounds (some [tri_far]) 0 1 0 1 none none = none ∧
      clip_by_bounds none 0 1 0 1 none none = none) :=
  ⟨cib_far_all, clip_by_bounds_conflates 0 1 0 1 none none [tri_far] cib_far_all⟩

end STLProcessor

end SG3D
